import Mathlib

/-!
Shallow embedding of the vector-math module (src/Vector.py), the
mesh-extraction adapter (src/Plotly.py) and the remote-interchange adapter
(src/Speckle.py) of the topologicpy repository, together with theorems
settling the specification claims about them.

Numeric code is embedded over the real numbers.  The Python builtin round
(round half to even) is modelled by pyRound, math.atan2 by atan2, and
math.degrees by degrees.  Python code that can raise (IndexError,
ZeroDivisionError) or return None is modelled with Option; remote calls are
modelled with Except, the error case standing for a raised remote exception.
-/

open scoped Classical

noncomputable section

/-- Round half to even at integer precision: the semantics of the Python
builtin round applied to a real value with zero fractional digits. -/
def roundHalfEven (x : ℝ) : ℤ :=
  if x - Int.floor x < 1 / 2 then Int.floor x
  else if 1 / 2 < x - Int.floor x then Int.floor x + 1
  else if Even (Int.floor x) then Int.floor x else Int.floor x + 1

/-- The Python builtin round with a digit count: round(x, mantissa). -/
def pyRound (x : ℝ) (mantissa : ℤ) : ℝ :=
  (roundHalfEven (x * 10 ^ mantissa) : ℝ) / 10 ^ mantissa

/-- math.atan2 over the reals, by the standard case analysis on the signs of
the arguments. -/
def atan2 (y x : ℝ) : ℝ :=
  if 0 < x then Real.arctan (y / x)
  else if x < 0 then
    (if 0 ≤ y then Real.arctan (y / x) + Real.pi else Real.arctan (y / x) - Real.pi)
  else
    (if 0 < y then Real.pi / 2 else if y < 0 then -(Real.pi / 2) else 0)

/-- math.degrees: radians to degrees. -/
def degrees (r : ℝ) : ℝ :=
  r * 180 / Real.pi

/-- str.lower of the source, viewed through the character list of the
string (Python lowercases characterwise). -/
def pyLower (s : String) : List Char :=
  s.data.map Char.toLower

/-- A 3-component vector, the data model of the Vector module. -/
def Vec3 : Type := ℝ × ℝ × ℝ

def Vec3.x (v : Vec3) : ℝ := v.1

def Vec3.y (v : Vec3) : ℝ := v.2.1

def Vec3.z (v : Vec3) : ℝ := v.2.2

/-- Euclidean norm of a 3-vector: np.linalg.norm. -/
def norm3 (v : Vec3) : ℝ :=
  Real.sqrt (v.x ^ 2 + v.y ^ 2 + v.z ^ 2)

/-- Componentwise scaling, used by the pre-normalization branch of Angle. -/
def smul3 (c : ℝ) (v : Vec3) : Vec3 :=
  (c * v.x, c * v.y, c * v.z)

/-- np.dot on 3-vectors. -/
def dot3 (a b : Vec3) : ℝ :=
  a.x * b.x + a.y * b.y + a.z * b.z

/-- np.cross on 3-vectors. -/
def cross3 (a b : Vec3) : Vec3 :=
  (a.y * b.z - a.z * b.y, a.z * b.x - a.x * b.z, a.x * b.y - a.y * b.x)

namespace Vector

/-- Vector.Angle from src/Vector.py: if the two norms differ by more than 10
orders of magnitude both vectors are pre-normalized; the angle is
degrees(atan2(|a x b|, a . b)), rounded to the mantissa. -/
def Angle (vectorA vectorB : Vec3) (mantissa : ℤ) : ℝ :=
  if |Real.logb 10 (norm3 vectorA / norm3 vectorB)| > 10 then
    pyRound (degrees (atan2
      (norm3 (cross3 (smul3 (1 / norm3 vectorA) vectorA)
                     (smul3 (1 / norm3 vectorB) vectorB)))
      (dot3 (smul3 (1 / norm3 vectorA) vectorA)
            (smul3 (1 / norm3 vectorB) vectorB)))) mantissa
  else
    pyRound (degrees (atan2 (norm3 (cross3 vectorA vectorB))
                            (dot3 vectorA vectorB))) mantissa

/-- Result record of Vector.AzimuthAltitude: the Python dict with keys
azimuth and altitude. -/
structure AzAlt where
  azimuth : ℝ
  altitude : ℝ

/-- Vector.AzimuthAltitude from src/Vector.py.  Returns none exactly where
the source returns None (the x = y = z = 0 case). -/
def AzimuthAltitude (vector : Vec3) (mantissa : ℤ) : Option AzAlt :=
  if vector.x = 0 ∧ vector.y = 0 then
    if 0 < vector.z then some ⟨0, 90⟩
    else if vector.z < 0 then some ⟨0, -90⟩
    else none
  else
    some ⟨pyRound
            (90 - (if degrees (atan2 vector.y vector.x) > 90
                   then degrees (atan2 vector.y vector.x) - 360
                   else degrees (atan2 vector.y vector.x))) mantissa,
          pyRound
            (degrees (atan2 vector.z (Real.sqrt (vector.x ^ 2 + vector.y ^ 2))))
            mantissa⟩

/-- Vector.Reverse from src/Vector.py: every component multiplied by -1. -/
def Reverse (vector : Vec3) : Vec3 :=
  (vector.x * -1, vector.y * -1, vector.z * -1)

/-- The norm Vector.Multiply computes inline: the sum of the squares of the
components, raised to the power 0.5. -/
def oldMag (vector : List ℝ) : ℝ :=
  Real.sqrt ((vector.map fun value => value ^ 2).sum)

/-- Vector.Multiply from src/Vector.py.  The value none models the
ZeroDivisionError the source raises when the guard is passed with a zero
norm (possible only when the tolerance is not positive); otherwise some
holds the returned list. -/
def Multiply (vector : List ℝ) (magnitude : ℝ) (tolerance : ℝ) : Option (List ℝ) :=
  if oldMag vector < tolerance then some [0, 0, 0]
  else if oldMag vector = 0 ∧ vector ≠ [] then none
  else some (vector.map fun vi => vi * magnitude / oldMag vector)

/-- The Python argument of Vector.Coordinates: either a list of numbers or
some non-list value. -/
inductive PyInput where
  | list (l : List ℝ)
  | nonList

/-- The possible outcomes of Vector.Coordinates: the explicit None return
for a non-list argument, an IndexError for a list with fewer than three
components, the 4x4 translation matrix, or the list of picked
coordinates. -/
inductive CoordResult where
  | pynone
  | pyerror
  | matrix (rows : List (List ℝ))
  | coords (cs : List ℝ)

/-- The character loop of Vector.Coordinates: for each axis letter of the
lowercased output type append the matching rounded component; any other
character appends nothing. -/
def coordLoop (x y z : ℝ) : List Char → List ℝ
  | [] => []
  | axis :: rest =>
    (if axis = 'x' then [x]
     else if axis = 'y' then [y]
     else if axis = 'z' then [z]
     else []) ++ coordLoop x y z rest

/-- Vector.Coordinates from src/Vector.py. -/
def Coordinates (vector : PyInput) (outputType : String) (mantissa : ℤ) : CoordResult :=
  match vector with
  | PyInput.nonList => CoordResult.pynone
  | PyInput.list (vx :: vy :: vz :: _) =>
    let x := pyRound vx mantissa
    let y := pyRound vy mantissa
    let z := pyRound vz mantissa
    if pyLower outputType = "matrix".data then
      CoordResult.matrix [[1, 0, 0, x], [0, 1, 0, y], [0, 0, 1, z], [0, 0, 0, 1]]
    else
      CoordResult.coords (coordLoop x y z (pyLower outputType))
  | PyInput.list _ => CoordResult.pyerror

end Vector

namespace Speckle

/-- The remote mesh record: flattened x,y,z vertex buffer and flattened face
buffer, each face encoded as its vertex count followed by its indices. -/
structure SpeckleMesh where
  vertices : List ℝ
  faces : List ℤ

/-- Speckle.mesh_to_speckle_mesh from src/Speckle.py, restricted to the
buffers it builds: flatten the vertex triples and prepend each face with its
length.  (The geometry kernel call and render material are external.) -/
def mesh_to_speckle_mesh (vertices : List (ℝ × ℝ × ℝ)) (faces : List (List ℤ)) :
    SpeckleMesh :=
  { vertices := vertices.foldr (fun v acc => v.1 :: v.2.1 :: v.2.2 :: acc) []
    faces := faces.foldr (fun f acc => (f.length : ℤ) :: (f ++ acc)) [] }

/-- The vertex loop of Speckle.Object.add_vertices: regroup the flat buffer
three entries at a time, scaling each coordinate.  none models the
IndexError the source raises when the buffer length is not a multiple of
three. -/
def add_vertices_go (scale : ℝ) : List ℝ → Option (List (ℝ × ℝ × ℝ))
  | [] => some []
  | x :: y :: z :: rest =>
    (add_vertices_go scale rest).map fun vs => (x * scale, y * scale, z * scale) :: vs
  | _ => none

/-- Speckle.Object.add_vertices: an empty buffer yields the empty vertex
list, otherwise the regrouping loop is run. -/
def add_vertices (speckle_mesh : SpeckleMesh) (scale : ℝ) : Option (List (ℝ × ℝ × ℝ)) :=
  add_vertices_go scale speckle_mesh.vertices

/-- The face loop of Speckle.Object.add_faces: read a count n, add 3 to it
when n < 3, then slice that many indices and continue after them. -/
def add_faces_go : List ℤ → List (List ℤ)
  | [] => []
  | n :: rest =>
    rest.take (if n < 3 then n + 3 else n).toNat ::
      add_faces_go (rest.drop (if n < 3 then n + 3 else n).toNat)
termination_by l => l.length
decreasing_by
  simp
  omega

/-- Speckle.Object.add_faces from src/Speckle.py: when the face buffer is
empty the source falls through its guard and returns None. -/
def add_faces (speckle_mesh : SpeckleMesh) : Option (List (List ℤ)) :=
  match speckle_mesh.faces with
  | [] => none
  | l => some (add_faces_go l)

universe u

variable {E σ β γ κ χ ν ι ω δ τ : Type u}

/-- Speckle.SpeckleCommitDelete from src/Speckle.py.  The first component is
some of the remote return value, or none for the Python False return; the
second counts how many times the remote delete operation was invoked. -/
def SpeckleCommitDelete {α : Type u} (confirm : Bool) (delete : Unit → Except E α) :
    Option α × ℕ :=
  if confirm then
    match delete () with
    | Except.ok deleted => (some deleted, 1)
    | Except.error _ => (none, 1)
  else (none, 0)

/-- Speckle.StreamsByClient: returns item.stream.list() unguarded. -/
def StreamsByClient (streamList : Except E σ) : Except E σ :=
  streamList

/-- The accumulation loop of Speckle.BranchesByStream: one remote get per
listed branch, in order. -/
def branchesLoop (branchGet : β → Except E γ) : List β → Except E (List γ)
  | [] => Except.ok []
  | b :: rest =>
    match branchGet b with
    | Except.error e => Except.error e
    | Except.ok g =>
      match branchesLoop branchGet rest with
      | Except.error e => Except.error e
      | Except.ok gs => Except.ok (g :: gs)

/-- Speckle.BranchesByStream: list the branches remotely, then get each. -/
def BranchesByStream (branchList : Except E (List β)) (branchGet : β → Except E γ) :
    Except E (List γ) :=
  match branchList with
  | Except.error e => Except.error e
  | Except.ok bList => branchesLoop branchGet bList

/-- Speckle.ClientByURL, remote part: authenticate, then return the client.
(The token prompt is local.) -/
def ClientByURL (authenticate : Except E Unit) (client : κ) : Except E κ :=
  match authenticate with
  | Except.error e => Except.error e
  | Except.ok _ => Except.ok client

/-- Speckle.SpeckleStreamByURL: authenticate, list the streams remotely,
then resolve the first stream matching the wrapped id (None when absent). -/
def SpeckleStreamByURL (authenticate : Except E Unit) (streamList : Except E (List σ))
    (isStream : σ → Bool) : Except E (Option σ) :=
  match authenticate with
  | Except.error e => Except.error e
  | Except.ok _ =>
    match streamList with
    | Except.error e => Except.error e
    | Except.ok streams => Except.ok (streams.find? isStream)

/-- Speckle.SpeckleCommitByURL: authenticate, list streams, list commits,
resolve the commit by id.  The resolved stream is only printed. -/
def SpeckleCommitByURL (authenticate : Except E Unit) (streamList : Except E (List σ))
    (isStream : σ → Bool) (commitList : Except E (List χ)) (isCommit : χ → Bool) :
    Except E (Option χ) :=
  match authenticate with
  | Except.error e => Except.error e
  | Except.ok _ =>
    match streamList with
    | Except.error e => Except.error e
    | Except.ok streams =>
      match commitList with
      | Except.error e => Except.error e
      | Except.ok commits =>
        let _stream := streams.find? isStream
        Except.ok (commits.find? isCommit)

/-- Speckle.SpeckleGlobalsByStream: get the globals branch remotely; when it
has commits, receive the latest referenced object and process it, else
return None. -/
def SpeckleGlobalsByStream (branchGet : Except E (List χ)) (receive : χ → Except E ω)
    (processBase : ω → δ) : Except E (Option δ) :=
  match branchGet with
  | Except.error e => Except.error e
  | Except.ok commits =>
    match commits with
    | [] => Except.ok none
    | latest :: _ =>
      match receive latest with
      | Except.error e => Except.error e
      | Except.ok globs => Except.ok (some (processBase globs))

/-- Speckle.Send: when run is falsy return None with no remote call;
otherwise send the object, create the commit, and scan the branch commits
for the returned id (isMatch abstracts the Python id comparison). -/
def Send (run : Bool) (send : Except E ι) (commitCreate : ι → Except E ν)
    (branchCommits : List χ) (isMatch : χ → ν → Bool) : Except E (Option χ) :=
  if run then
    match send with
    | Except.error e => Except.error e
    | Except.ok obj_id =>
      match commitCreate obj_id with
      | Except.error e => Except.error e
      | Except.ok commit_id =>
        Except.ok (branchCommits.find? fun commit => isMatch commit commit_id)
  else Except.ok none

/-- Speckle.SpeckleSendObjects: the same sequence as Send (the source
duplicates it with a fixed commit key). -/
def SpeckleSendObjects (run : Bool) (send : Except E ι)
    (commitCreate : ι → Except E ν) (branchCommits : List χ) (isMatch : χ → ν → Bool) :
    Except E (Option χ) :=
  if run then
    match send with
    | Except.error e => Except.error e
    | Except.ok obj_id =>
      match commitCreate obj_id with
      | Except.error e => Except.error e
      | Except.ok commit_id =>
        Except.ok (branchCommits.find? fun commit => isMatch commit commit_id)
  else Except.ok none

/-- Speckle.Object: receive the referenced object remotely, then decode it
with mesh_to_native at the default scale 1.0 and hand the decoded buffers to
the external geometry kernel. -/
def Object (receive : Except E SpeckleMesh)
    (byGeometry : Option (List (ℝ × ℝ × ℝ)) → Option (List (List ℤ)) → τ) :
    Except E τ :=
  match receive with
  | Except.error e => Except.error e
  | Except.ok speckle_mesh =>
    Except.ok (byGeometry (add_vertices speckle_mesh 1) (add_faces speckle_mesh))

end Speckle

namespace Plotly

/-- The escalating-tolerance lookup loop of Plotly.DataByTopology (the while
loop over Vertex.Index), run on a fuel budget: some r means the while loop
exited with i = r after at most fuel iterations; none means the loop was
still running when the fuel ran out. -/
def escalate (lookup : ℝ → Option ℕ) : ℕ → ℝ → Option (Option ℕ)
  | 0, _ => none
  | fuel + 1, tolerance =>
    if tolerance < 3 then
      match lookup tolerance with
      | some i => some (some i)
      | none => escalate lookup fuel (tolerance * 10)
    else some none

/-- The while loop terminates: some fuel budget suffices for it to exit. -/
def loopTerminates (lookup : ℝ → Option ℕ) (tolerance : ℝ) : Prop :=
  ∃ fuel, (escalate lookup fuel tolerance).isSome

/-- The index a corner of a triangle resolves to, given the fuel budget:
none when the loop exits with i = None or does not exit. -/
def cornerResolve (lookup : ℝ → Option ℕ) (tolerance : ℝ) (fuel : ℕ) : Option ℕ :=
  (escalate lookup fuel tolerance).bind id

/-- The face-building loop of Plotly.DataByTopology: for each triangle,
resolve each corner with the escalating-tolerance loop, keep the resolved
indices, and append the face only when more than 2 corners resolved.  A
triangle is a list of corner lookup functions (each abstracting Vertex.Index
applied to that corner and the original vertex array). -/
def facesOf (triangles : List (List (ℝ → Option ℕ))) (tolerance : ℝ) (fuel : ℕ) :
    List (List ℕ) :=
  triangles.foldr
    (fun tri acc =>
      if 2 < (tri.filterMap fun lk => cornerResolve lk tolerance fuel).length
      then (tri.filterMap fun lk => cornerResolve lk tolerance fuel) :: acc
      else acc) []

end Plotly

/-- The banker-rounding kernel fixes integers. -/
theorem roundHalfEven_intCast (n : ℤ) : roundHalfEven (n : ℝ) = n := by
  unfold roundHalfEven
  rw [Int.floor_intCast]
  norm_num

/-- pyRound fixes zero at every mantissa. -/
theorem pyRound_zero (m : ℤ) : pyRound 0 m = 0 := by
  unfold pyRound
  rw [zero_mul, show (0:ℝ) = ((0:ℤ):ℝ) by norm_num, roundHalfEven_intCast]
  norm_num

/-- pyRound fixes integers at every nonnegative mantissa. -/
theorem pyRound_intCast (n m : ℤ) (hm : 0 ≤ m) : pyRound (n : ℝ) m = n := by
  unfold pyRound
  obtain ⟨k, rfl⟩ := Int.eq_ofNat_of_zero_le hm
  rw [zpow_natCast, show ((n:ℝ)) * 10 ^ k = ((n * 10 ^ k : ℤ) : ℝ) by push_cast; ring,
    roundHalfEven_intCast]
  push_cast
  rw [mul_div_assoc, div_self (by positivity), mul_one]

/-- atan2 of 0 and a positive second argument is 0. -/
theorem atan2_zero_pos (x : ℝ) (hx : 0 < x) : atan2 0 x = 0 := by
  unfold atan2
  rw [if_pos hx, zero_div, Real.arctan_zero]

/-- atan2(0, -1) is pi, the source of the 180 degree result. -/
theorem atan2_zero_neg_one : atan2 0 (-1 : ℝ) = Real.pi := by
  unfold atan2
  rw [if_neg (by norm_num), if_pos (by norm_num : (-1:ℝ) < 0), if_pos le_rfl]
  norm_num

/-- degrees of 0 is 0. -/
theorem degrees_zero : degrees 0 = 0 := by
  unfold degrees
  rw [zero_mul, zero_div]

/-- degrees of pi is 180. -/
theorem degrees_pi : degrees Real.pi = 180 := by
  unfold degrees
  rw [mul_comm, mul_div_assoc, div_self Real.pi_ne_zero, mul_one]

/-- C5: for every unit vector a, Angle(a, a) = 0 and
Angle(a, Reverse(a)) = 180 at the default mantissa. -/
theorem angle_self_and_reverse (x y z : ℝ) (h : norm3 (x, y, z) = 1) :
    Vector.Angle (x, y, z) (x, y, z) 4 = 0 ∧
    Vector.Angle (x, y, z) (Vector.Reverse (x, y, z)) 4 = 180 := by
  have hs : x ^ 2 + y ^ 2 + z ^ 2 = 1 := by
    have h2 := h
    unfold norm3 at h2
    simp only [Vec3.x, Vec3.y, Vec3.z] at h2
    exact Real.sqrt_eq_one.mp h2
  have hr : norm3 (Vector.Reverse (x, y, z)) = 1 := by
    unfold Vector.Reverse norm3
    simp only [Vec3.x, Vec3.y, Vec3.z]
    rw [show (x * -1) ^ 2 + (y * -1) ^ 2 + (z * -1) ^ 2 = x ^ 2 + y ^ 2 + z ^ 2 by ring,
      hs, Real.sqrt_one]
  constructor
  · unfold Vector.Angle
    rw [h, if_neg (by norm_num [Real.logb_one])]
    have hcross : norm3 (cross3 (x, y, z) (x, y, z)) = 0 := by
      unfold cross3 norm3
      simp only [Vec3.x, Vec3.y, Vec3.z]
      rw [show (y * z - z * y) ^ 2 + (z * x - x * z) ^ 2 + (x * y - y * x) ^ 2 = (0:ℝ)
        by ring, Real.sqrt_zero]
    have hdot : dot3 (x, y, z) (x, y, z) = 1 := by
      unfold dot3
      simp only [Vec3.x, Vec3.y, Vec3.z]
      rw [show x * x + y * y + z * z = x ^ 2 + y ^ 2 + z ^ 2 by ring, hs]
    rw [hcross, hdot, atan2_zero_pos 1 one_pos, degrees_zero, pyRound_zero]
  · unfold Vector.Angle
    rw [h, hr, if_neg (by norm_num [Real.logb_one])]
    have hcross : norm3 (cross3 (x, y, z) (Vector.Reverse (x, y, z))) = 0 := by
      unfold Vector.Reverse cross3 norm3
      simp only [Vec3.x, Vec3.y, Vec3.z]
      rw [show (y * (z * -1) - z * (y * -1)) ^ 2 + (z * (x * -1) - x * (z * -1)) ^ 2 +
        (x * (y * -1) - y * (x * -1)) ^ 2 = (0:ℝ) by ring, Real.sqrt_zero]
    have hdot : dot3 (x, y, z) (Vector.Reverse (x, y, z)) = -1 := by
      unfold Vector.Reverse dot3
      simp only [Vec3.x, Vec3.y, Vec3.z]
      rw [show x * (x * -1) + y * (y * -1) + z * (z * -1) = -(x ^ 2 + y ^ 2 + z ^ 2)
        by ring, hs]
    rw [hcross, hdot, atan2_zero_neg_one, degrees_pi,
      show (180:ℝ) = ((180:ℤ):ℝ) by norm_num, pyRound_intCast 180 4 (by norm_num)]

/-- Witness for C5 at the unit vector [1,0,0]. -/
theorem angle_self_and_reverse_witness :
    norm3 (1, 0, 0) = 1 ∧
    Vector.Angle (1, 0, 0) (1, 0, 0) 4 = 0 ∧
    Vector.Angle (1, 0, 0) (Vector.Reverse (1, 0, 0)) 4 = 180 := by
  have h1 : norm3 ((1:ℝ), (0:ℝ), (0:ℝ)) = 1 := by
    unfold norm3
    simp only [Vec3.x, Vec3.y, Vec3.z]
    norm_num
  exact ⟨h1, angle_self_and_reverse 1 0 0 h1⟩

/-- atan2 never goes below -pi. -/
theorem neg_pi_lt_atan2 (y x : ℝ) : -Real.pi < atan2 y x := by
  unfold atan2
  split_ifs with h1 h2 h3 h4 h5
  · nlinarith [Real.neg_pi_div_two_lt_arctan (y / x), Real.pi_pos]
  · nlinarith [Real.neg_pi_div_two_lt_arctan (y / x), Real.pi_pos]
  · have hyx : 0 < y / x := div_pos_iff.mpr (Or.inr ⟨not_le.mp h3, h2⟩)
    have harc : 0 < Real.arctan (y / x) := by
      have := Real.arctan_strictMono hyx
      rwa [Real.arctan_zero] at this
    linarith
  · linarith [Real.pi_pos]
  · linarith [Real.pi_pos]
  · linarith [Real.pi_pos]

/-- atan2 never exceeds pi. -/
theorem atan2_le_pi (y x : ℝ) : atan2 y x ≤ Real.pi := by
  unfold atan2
  split_ifs with h1 h2 h3 h4 h5
  · nlinarith [Real.arctan_lt_pi_div_two (y / x), Real.pi_pos]
  · have hyx : y / x ≤ 0 := div_nonpos_iff.mpr (Or.inl ⟨h3, h2.le⟩)
    have harc : Real.arctan (y / x) ≤ 0 := by
      have := Real.arctan_strictMono.monotone hyx
      rwa [Real.arctan_zero] at this
    linarith
  · linarith [Real.arctan_lt_pi_div_two (y / x), Real.pi_pos]
  · linarith [Real.pi_pos]
  · linarith [Real.pi_pos]
  · linarith [Real.pi_pos]

/-- degrees of atan2 never exceeds 180. -/
theorem degrees_atan2_le (y x : ℝ) : degrees (atan2 y x) ≤ 180 := by
  unfold degrees
  rw [div_le_iff₀ Real.pi_pos]
  nlinarith [atan2_le_pi y x, Real.pi_pos]

/-- degrees of atan2 stays above -180. -/
theorem neg_lt_degrees_atan2 (y x : ℝ) : -180 < degrees (atan2 y x) := by
  unfold degrees
  rw [lt_div_iff₀ Real.pi_pos]
  nlinarith [neg_pi_lt_atan2 y x, Real.pi_pos]

/-- C4 (amended): when x and y are not both zero, AzimuthAltitude returns
the rounding of an azimuth w with w = 90 - atan2(y,x) in degrees wrapped
into [0, 360) before rounding, and the rounding of
atan2(z, sqrt(x^2+y^2)) in degrees as altitude.  (After rounding, the
returned azimuth can reach 360; see the counterexample.) -/
theorem azimuthAltitude_general (x y z : ℝ) (m : ℤ) (h : ¬(x = 0 ∧ y = 0)) :
    ∃ w : ℝ,
      Vector.AzimuthAltitude (x, y, z) m =
        some ⟨pyRound w m,
              pyRound (degrees (atan2 z (Real.sqrt (x ^ 2 + y ^ 2)))) m⟩ ∧
      0 ≤ w ∧ w < 360 ∧
      (w = 90 - degrees (atan2 y x) ∨ w = 90 - degrees (atan2 y x) + 360) := by
  have hub := degrees_atan2_le y x
  have hlb := neg_lt_degrees_atan2 y x
  unfold Vector.AzimuthAltitude
  simp only [Vec3.x, Vec3.y, Vec3.z]
  rw [if_neg h]
  by_cases hd : degrees (atan2 y x) > 90
  · rw [if_pos hd]
    exact ⟨90 - (degrees (atan2 y x) - 360), rfl, by linarith, by linarith,
      Or.inr (by ring)⟩
  · rw [if_neg hd]
    exact ⟨90 - degrees (atan2 y x), rfl, by linarith, by linarith, Or.inl rfl⟩

/-- Witness for the amended C4 at the vector [1,0,0] and mantissa 4. -/
theorem azimuthAltitude_general_witness :
    ¬((1:ℝ) = 0 ∧ (0:ℝ) = 0) ∧
    ∃ w : ℝ,
      Vector.AzimuthAltitude ((1:ℝ), (0:ℝ), (0:ℝ)) 4 =
        some ⟨pyRound w 4,
              pyRound (degrees (atan2 0 (Real.sqrt ((1:ℝ) ^ 2 + (0:ℝ) ^ 2)))) 4⟩ ∧
      0 ≤ w ∧ w < 360 ∧
      (w = 90 - degrees (atan2 0 1) ∨ w = 90 - degrees (atan2 0 1) + 360) :=
  ⟨by norm_num, azimuthAltitude_general 1 0 0 4 (by norm_num)⟩

/-- Counterexample for C4 as stated: at the vector [-1/1000, 1, 0] and
mantissa 0 the returned azimuth is exactly 360, so the returned azimuth does
reach 360 (the wrapped value 359.5 < w < 360 rounds up). -/
theorem azimuthAltitude_returns_360 :
    Vector.AzimuthAltitude (-(1/1000), 1, 0) 0 = some ⟨360, 0⟩ := by
  have hpi := Real.pi_pos
  have hd1 : (0:ℝ) < Real.pi / 360 := by positivity
  have hd2 : Real.pi / 360 < Real.pi / 2 := by linarith
  have htan : Real.pi / 360 < Real.tan (Real.pi / 360) := Real.lt_tan hd1 hd2
  have hinv : Real.tan (Real.pi / 2 - Real.pi / 360) < 1000 := by
    rw [Real.tan_pi_div_two_sub]
    have h1000 : (1000:ℝ)⁻¹ < Real.tan (Real.pi / 360) := by
      have hlt : (1000:ℝ)⁻¹ < Real.pi / 360 := by
        rw [inv_eq_one_div, div_lt_div_iff₀ (by norm_num) (by norm_num)]
        nlinarith [Real.pi_gt_three]
      linarith
    have := inv_strictAnti₀ (by norm_num : (0:ℝ) < (1000:ℝ)⁻¹) h1000
    rwa [inv_inv] at this
  have harct : Real.pi / 2 - Real.pi / 360 < Real.arctan 1000 := by
    have hmem1 : -(Real.pi / 2) < Real.pi / 2 - Real.pi / 360 := by linarith
    have hmem2 : Real.pi / 2 - Real.pi / 360 < Real.pi / 2 := by linarith
    have hmono := Real.arctan_strictMono hinv
    rwa [Real.arctan_tan hmem1 hmem2] at hmono
  have harctlt : Real.arctan 1000 < Real.pi / 2 := Real.arctan_lt_pi_div_two 1000
  have hatan2 : atan2 1 (-(1/1000) : ℝ) = Real.pi - Real.arctan 1000 := by
    unfold atan2
    rw [if_neg (by norm_num), if_pos (by norm_num : (-(1/1000):ℝ) < 0),
      if_pos (by norm_num : (0:ℝ) ≤ 1),
      show (1:ℝ) / (-(1/1000)) = -1000 by norm_num, Real.arctan_neg]
    ring
  have hD : degrees (atan2 1 (-(1/1000):ℝ)) =
      180 - Real.arctan 1000 * 180 / Real.pi := by
    rw [hatan2]
    unfold degrees
    field_simp
    ring
  have hA1 : Real.arctan 1000 * 180 / Real.pi < 90 := by
    rw [div_lt_iff₀ hpi]
    nlinarith [harctlt]
  have hA2 : (179/2 : ℝ) < Real.arctan 1000 * 180 / Real.pi := by
    rw [lt_div_iff₀ hpi]
    nlinarith [harct]
  unfold Vector.AzimuthAltitude
  simp only [Vec3.x, Vec3.y, Vec3.z]
  rw [if_neg (by norm_num : ¬((-(1/1000):ℝ) = 0 ∧ (1:ℝ) = 0))]
  have hgt : degrees (atan2 1 (-(1/1000):ℝ)) > 90 := by
    rw [hD]
    linarith
  rw [if_pos hgt, hD]
  have hfloor : Int.floor (90 - (180 - Real.arctan 1000 * 180 / Real.pi - 360)) =
      (359 : ℤ) := by
    rw [Int.floor_eq_iff]
    push_cast
    constructor <;> linarith
  have hround : roundHalfEven (90 - (180 - Real.arctan 1000 * 180 / Real.pi - 360)) =
      360 := by
    unfold roundHalfEven
    rw [hfloor, if_neg (by push_cast; linarith), if_pos (by push_cast; linarith)]
    norm_num
  have hpy : pyRound (90 - (180 - Real.arctan 1000 * 180 / Real.pi - 360)) 0 =
      360 := by
    unfold pyRound
    rw [zpow_zero, mul_one, hround, div_one]
    norm_num
  have hsq : (0:ℝ) < Real.sqrt ((-(1/1000):ℝ) ^ 2 + (1:ℝ) ^ 2) :=
    Real.sqrt_pos.mpr (by norm_num)
  have halt : pyRound (degrees (atan2 0 (Real.sqrt ((-(1/1000):ℝ) ^ 2 + (1:ℝ) ^ 2)))) 0
      = 0 := by
    rw [atan2_zero_pos _ hsq, degrees_zero, pyRound_zero]
  rw [hpy, halt]

/-- C3: for a vector [0,0,z], AzimuthAltitude returns azimuth 0 and altitude
90 when z is positive, azimuth 0 and altitude -90 when z is negative, and no
result at all when z is zero. -/
theorem azimuthAltitude_vertical (z : ℝ) (mantissa : ℤ) :
    (0 < z → Vector.AzimuthAltitude (0, 0, z) mantissa = some ⟨0, 90⟩) ∧
    (z < 0 → Vector.AzimuthAltitude (0, 0, z) mantissa = some ⟨0, -90⟩) ∧
    (z = 0 → Vector.AzimuthAltitude (0, 0, z) mantissa = none) := by
  unfold Vector.AzimuthAltitude
  refine ⟨fun hz => ?_, fun hz => ?_, fun hz => ?_⟩
  · rw [if_pos ⟨rfl, rfl⟩]
    simp [Vec3.z, hz]
  · rw [if_pos ⟨rfl, rfl⟩]
    simp [Vec3.z, hz, hz.not_lt]
  · rw [if_pos ⟨rfl, rfl⟩]
    simp [Vec3.z, hz]

/-- Witness for C3 at the concrete inputs of the claim. -/
theorem azimuthAltitude_vertical_witness :
    ((0:ℝ) < 5 ∧ Vector.AzimuthAltitude (0, 0, 5) 4 = some ⟨0, 90⟩) ∧
    ((-5:ℝ) < 0 ∧ Vector.AzimuthAltitude (0, 0, -5) 4 = some ⟨0, -90⟩) ∧
    Vector.AzimuthAltitude (0, 0, 0) 4 = none :=
  ⟨⟨by norm_num, (azimuthAltitude_vertical 5 4).1 (by norm_num)⟩,
   ⟨by norm_num, (azimuthAltitude_vertical (-5) 4).2.1 (by norm_num)⟩,
   (azimuthAltitude_vertical 0 4).2.2 rfl⟩

/-- C9 (amended): with a positive tolerance, Multiply returns [0,0,0]
whenever the norm is below the tolerance, and otherwise returns the
components scaled by magnitude over the norm, the divisor being nonzero. -/
theorem multiply_guarded (vector : List ℝ) (magnitude tolerance : ℝ)
    (h : 0 < tolerance) :
    (Vector.oldMag vector < tolerance →
      Vector.Multiply vector magnitude tolerance = some [0, 0, 0]) ∧
    (tolerance ≤ Vector.oldMag vector →
      Vector.Multiply vector magnitude tolerance =
        some (vector.map fun vi => vi * magnitude / Vector.oldMag vector) ∧
      Vector.oldMag vector ≠ 0) := by
  constructor
  · intro hlt
    unfold Vector.Multiply
    rw [if_pos hlt]
  · intro hge
    have hne : Vector.oldMag vector ≠ 0 := by
      intro h0
      rw [h0] at hge
      linarith
    unfold Vector.Multiply
    rw [if_neg (not_lt.mpr hge), if_neg (fun hc => hne hc.1)]
    exact ⟨rfl, hne⟩

/-- Witness for the amended C9 at the vector [1,0,0] with tolerance 1/2. -/
theorem multiply_guarded_witness :
    (0:ℝ) < 1/2 ∧ (1:ℝ)/2 ≤ Vector.oldMag [1, 0, 0] ∧
    (Vector.Multiply [1, 0, 0] 7 (1/2) =
       some ([1, 0, 0].map fun vi => vi * 7 / Vector.oldMag [1, 0, 0]) ∧
     Vector.oldMag [1, 0, 0] ≠ 0) := by
  have h1 : Vector.oldMag [1, 0, 0] = 1 := by
    unfold Vector.oldMag
    simp
  refine ⟨by norm_num, by rw [h1]; norm_num, ?_⟩
  exact (multiply_guarded [1, 0, 0] 7 (1/2) (by norm_num)).2 (by rw [h1]; norm_num)

/-- Counterexample for C9 as stated: at tolerance 0 the zero vector passes
the guard and the division by the zero norm is reached, so Multiply fails
(raises, modelled by none) instead of returning scaled components. -/
theorem multiply_unguarded_at_zero_tolerance :
    Vector.Multiply [0, 0, 0] 5 0 = none ∧ ¬(Vector.oldMag [0, 0, 0] < 0) := by
  have h0 : Vector.oldMag [0, 0, 0] = 0 := by
    unfold Vector.oldMag
    simp
  constructor
  · unfold Vector.Multiply
    rw [if_neg (by rw [h0]; norm_num), if_pos ⟨h0, by simp⟩]
  · rw [h0]
    norm_num

/-- The coordinate loop collects, in order and with repetition, the values
matching the axis letters x, y, z and skips every other character. -/
theorem coordLoop_eq_filterMap (x y z : ℝ) (l : List Char) :
    Vector.coordLoop x y z l = l.filterMap fun c =>
      if c = 'x' then some x else if c = 'y' then some y
      else if c = 'z' then some z else none := by
  induction l with
  | nil => rfl
  | cons c rest ih =>
    unfold Vector.coordLoop
    rw [List.filterMap_cons]
    by_cases hx : c = 'x'
    · simp [hx, ih]
    · by_cases hy : c = 'y'
      · simp [hx, hy, ih]
      · by_cases hz : c = 'z'
        · simp [hx, hy, hz, ih]
        · simp [hx, hy, hz, ih]

/-- C10: for a 3-component vector and an output type whose lowercase form is
not the matrix keyword, Coordinates returns exactly the rounded components
matching the characters x, y, z of the lowercased string, in order and with
repetition, skipping other characters (so no axis letter gives the empty
list), and a non-list argument gives the None return. -/
theorem coordinates_spec (vx vy vz : ℝ) (s : String) (m : ℤ)
    (hm : pyLower s ≠ "matrix".data) :
    Vector.Coordinates (Vector.PyInput.list [vx, vy, vz]) s m =
      Vector.CoordResult.coords ((pyLower s).filterMap fun c =>
        if c = 'x' then some (pyRound vx m)
        else if c = 'y' then some (pyRound vy m)
        else if c = 'z' then some (pyRound vz m) else none) ∧
    ((∀ c ∈ pyLower s, c ≠ 'x' ∧ c ≠ 'y' ∧ c ≠ 'z') →
      Vector.Coordinates (Vector.PyInput.list [vx, vy, vz]) s m =
        Vector.CoordResult.coords []) ∧
    (∀ t : String, ∀ k : ℤ,
      Vector.Coordinates Vector.PyInput.nonList t k = Vector.CoordResult.pynone) := by
  have hred : Vector.Coordinates (Vector.PyInput.list [vx, vy, vz]) s m =
      Vector.CoordResult.coords
        (Vector.coordLoop (pyRound vx m) (pyRound vy m) (pyRound vz m) (pyLower s)) := by
    have hm2 : Vector.Coordinates (Vector.PyInput.list [vx, vy, vz]) s m =
        (if pyLower s = "matrix".data then
          Vector.CoordResult.matrix
            [[1, 0, 0, pyRound vx m], [0, 1, 0, pyRound vy m],
             [0, 0, 1, pyRound vz m], [0, 0, 0, 1]]
        else
          Vector.CoordResult.coords
            (Vector.coordLoop (pyRound vx m) (pyRound vy m) (pyRound vz m)
              (pyLower s))) := rfl
    rw [hm2, if_neg hm]
  refine ⟨?_, ?_, fun t k => rfl⟩
  · rw [hred, coordLoop_eq_filterMap]
  · intro hall
    rw [hred, coordLoop_eq_filterMap]
    refine congrArg Vector.CoordResult.coords (List.filterMap_eq_nil_iff.mpr ?_)
    intro c hc
    obtain ⟨h1, h2, h3⟩ := hall c hc
    simp [h1, h2, h3]

/-- Witness for C10 at the vector [1,2,3] and output type zZxq. -/
theorem coordinates_spec_witness :
    pyLower "zZxq" ≠ "matrix".data ∧
    (Vector.Coordinates (Vector.PyInput.list [1, 2, 3]) "zZxq" 0 =
      Vector.CoordResult.coords ((pyLower "zZxq").filterMap fun c =>
        if c = 'x' then some (pyRound 1 0)
        else if c = 'y' then some (pyRound 2 0)
        else if c = 'z' then some (pyRound 3 0) else none) ∧
    ((∀ c ∈ pyLower "zZxq", c ≠ 'x' ∧ c ≠ 'y' ∧ c ≠ 'z') →
      Vector.Coordinates (Vector.PyInput.list [1, 2, 3]) "zZxq" 0 =
        Vector.CoordResult.coords []) ∧
    (∀ t : String, ∀ k : ℤ,
      Vector.Coordinates Vector.PyInput.nonList t k = Vector.CoordResult.pynone)) :=
  ⟨by decide, coordinates_spec 1 2 3 "zZxq" 0 (by decide)⟩

/-- Decoding the encoded vertex buffer at scale 1 reproduces the vertex
triples. -/
theorem add_vertices_encode (vertices : List (ℝ × ℝ × ℝ)) :
    Speckle.add_vertices_go 1
      (vertices.foldr (fun v acc => v.1 :: v.2.1 :: v.2.2 :: acc) []) =
      some vertices := by
  induction vertices with
  | nil => rfl
  | cons v vs ih =>
    obtain ⟨a, b, c⟩ := v
    simp only [List.foldr_cons, Speckle.add_vertices_go, ih, mul_one]
    rfl

/-- Decoding the encoded face buffer reproduces the faces when every face
has arity at least 3. -/
theorem add_faces_encode (faces : List (List ℤ)) (h : ∀ f ∈ faces, 3 ≤ f.length) :
    Speckle.add_faces_go
      (faces.foldr (fun f acc => (f.length : ℤ) :: (f ++ acc)) []) = faces := by
  induction faces with
  | nil => simp [Speckle.add_faces_go]
  | cons f fs ih =>
    have hf : 3 ≤ f.length := h f (List.mem_cons_self f fs)
    have hcond : ¬((f.length : ℤ) < 3) := by
      rw [not_lt]
      exact_mod_cast hf
    rw [List.foldr_cons]
    simp only [Speckle.add_faces_go]
    rw [if_neg hcond, Int.toNat_natCast, List.take_left' rfl, List.drop_left' rfl,
      ih (fun g hg => h g (List.mem_cons_of_mem f hg))]

/-- C1 (amended): for every mesh buffer with a nonempty face list whose
faces all have arity at least 3, encoding to the remote mesh record and
decoding back at scale 1 reproduces the vertex triples and the face index
lists exactly. -/
theorem mesh_roundtrip (vertices : List (ℝ × ℝ × ℝ)) (faces : List (List ℤ))
    (hne : faces ≠ []) (harity : ∀ f ∈ faces, 3 ≤ f.length) :
    Speckle.add_vertices (Speckle.mesh_to_speckle_mesh vertices faces) 1 =
      some vertices ∧
    Speckle.add_faces (Speckle.mesh_to_speckle_mesh vertices faces) = some faces := by
  constructor
  · exact add_vertices_encode vertices
  · cases faces with
    | nil => exact absurd rfl hne
    | cons f fs =>
      show some (Speckle.add_faces_go
        ((f :: fs).foldr (fun g acc => ((g.length : ℤ)) :: (g ++ acc)) [])) =
        some (f :: fs)
      exact congrArg some (add_faces_encode (f :: fs) harity)

/-- Witness for the amended C1 at the 2-triangle mesh of the spec. -/
theorem mesh_roundtrip_witness :
    (([[0, 1, 2], [1, 2, 3]] : List (List ℤ)) ≠ [] ∧
     ∀ f ∈ ([[0, 1, 2], [1, 2, 3]] : List (List ℤ)), 3 ≤ f.length) ∧
    (Speckle.add_vertices
       (Speckle.mesh_to_speckle_mesh [(0, 0, 0), (1, 0, 0), (0, 1, 0), (1, 1, 0)]
         [[0, 1, 2], [1, 2, 3]]) 1 =
       some [(0, 0, 0), (1, 0, 0), (0, 1, 0), (1, 1, 0)] ∧
     Speckle.add_faces
       (Speckle.mesh_to_speckle_mesh [(0, 0, 0), (1, 0, 0), (0, 1, 0), (1, 1, 0)]
         [[0, 1, 2], [1, 2, 3]]) = some [[0, 1, 2], [1, 2, 3]]) :=
  ⟨⟨by decide, by decide⟩,
   mesh_roundtrip [(0, 0, 0), (1, 0, 0), (0, 1, 0), (1, 1, 0)]
     [[0, 1, 2], [1, 2, 3]] (by decide) (by decide)⟩

/-- Counterexample for C1 as stated: a mesh buffer with no faces (which
vacuously has all arities at least 3) decodes its face buffer to the Python
None, not to the original empty face list. -/
theorem mesh_roundtrip_empty_faces :
    (∀ f ∈ ([] : List (List ℤ)), 3 ≤ f.length) ∧
    Speckle.add_faces (Speckle.mesh_to_speckle_mesh [((0:ℝ), 0, 0)] []) = none :=
  ⟨fun f hf => absurd hf (List.not_mem_nil f), rfl⟩

/-- C2: the face decoder adds 3 to an encoded count of 0 or 1 before slicing
(yielding a 3-index and a 4-index face respectively, buffer permitting) and
uses every count of at least 3 unchanged as the arity. -/
theorem add_faces_count_adjust (n : ℤ) (rest : List ℤ) :
    ((n = 0 ∨ n = 1) →
      Speckle.add_faces_go (n :: rest) =
        rest.take (n + 3).toNat ::
          Speckle.add_faces_go (rest.drop (n + 3).toNat) ∧
      ((n + 3).toNat ≤ rest.length →
        ((rest.take (n + 3).toNat).length : ℤ) = n + 3)) ∧
    (3 ≤ n →
      Speckle.add_faces_go (n :: rest) =
        rest.take n.toNat :: Speckle.add_faces_go (rest.drop n.toNat) ∧
      (n.toNat ≤ rest.length → ((rest.take n.toNat).length : ℤ) = n)) := by
  constructor
  · rintro (rfl | rfl)
    · refine ⟨?_, ?_⟩
      · simp only [Speckle.add_faces_go]
        rw [if_pos (by norm_num : (0:ℤ) < 3)]
      · intro hlen
        rw [List.length_take, min_eq_left hlen]
        norm_num
    · refine ⟨?_, ?_⟩
      · simp only [Speckle.add_faces_go]
        rw [if_pos (by norm_num : (1:ℤ) < 3)]
      · intro hlen
        rw [List.length_take, min_eq_left hlen]
        norm_num
  · intro h3
    refine ⟨?_, ?_⟩
    · simp only [Speckle.add_faces_go]
      rw [if_neg (not_lt.mpr h3)]
    · intro hlen
      rw [List.length_take, min_eq_left hlen, Int.toNat_of_nonneg (by omega)]

/-- Witness for C2 at an encoded count of 0 and an encoded count of 3. -/
theorem add_faces_count_adjust_witness :
    (Speckle.add_faces_go ((0:ℤ) :: [7, 8, 9]) =
       [7, 8, 9].take ((0:ℤ) + 3).toNat ::
         Speckle.add_faces_go (([7, 8, 9] : List ℤ).drop ((0:ℤ) + 3).toNat) ∧
     (((0:ℤ) + 3).toNat ≤ ([7, 8, 9] : List ℤ).length →
       ((([7, 8, 9] : List ℤ).take ((0:ℤ) + 3).toNat).length : ℤ) = 0 + 3)) ∧
    (Speckle.add_faces_go ((3:ℤ) :: [4, 5, 6]) =
       [4, 5, 6].take (3:ℤ).toNat ::
         Speckle.add_faces_go (([4, 5, 6] : List ℤ).drop (3:ℤ).toNat) ∧
     ((3:ℤ).toNat ≤ ([4, 5, 6] : List ℤ).length →
       ((([4, 5, 6] : List ℤ).take (3:ℤ).toNat).length : ℤ) = 3)) :=
  ⟨(add_faces_count_adjust 0 [7, 8, 9]).1 (Or.inl rfl),
   (add_faces_count_adjust 3 [4, 5, 6]).2 (by norm_num)⟩

/-- Once the escalating tolerance reaches 3, the loop exits within one more
check; hence a fuel budget pushing the tolerance past the cap suffices. -/
theorem escalate_exits (lookup : ℝ → Option ℕ) :
    ∀ (n : ℕ) (tol : ℝ), 3 ≤ tol * 10 ^ n →
      (Plotly.escalate lookup (n + 1) tol).isSome := by
  intro n
  induction n with
  | zero =>
    intro tol h
    rw [pow_zero, mul_one] at h
    unfold Plotly.escalate
    rw [if_neg (not_lt.mpr h)]
    rfl
  | succ k ih =>
    intro tol h
    unfold Plotly.escalate
    by_cases htol : tol < 3
    · rw [if_pos htol]
      cases hl : lookup tol with
      | some i => rfl
      | none =>
        apply ih
        calc (3:ℝ) ≤ tol * 10 ^ (k + 1) := h
        _ = tol * 10 * 10 ^ k := by ring
    · rw [if_neg htol]
      rfl

/-- C6 (amended): for every positive caller-supplied tolerance the
escalating-tolerance lookup loop terminates; it exits as soon as a lookup
succeeds or once the tolerance reaches the cap 3, and multiplies the
tolerance by 10 after each failed lookup. -/
theorem escalate_terminates (lookup : ℝ → Option ℕ) (tolerance : ℝ)
    (h : 0 < tolerance) :
    Plotly.loopTerminates lookup tolerance ∧
    (∀ fuel i, tolerance < 3 → lookup tolerance = some i →
      Plotly.escalate lookup (fuel + 1) tolerance = some (some i)) ∧
    (∀ fuel, 3 ≤ tolerance →
      Plotly.escalate lookup (fuel + 1) tolerance = some none) ∧
    (∀ fuel, tolerance < 3 → lookup tolerance = none →
      Plotly.escalate lookup (fuel + 1) tolerance =
        Plotly.escalate lookup fuel (tolerance * 10)) := by
  refine ⟨?_, ?_, ?_, ?_⟩
  · obtain ⟨n, hn⟩ := pow_unbounded_of_one_lt (3 / tolerance) (by norm_num : (1:ℝ) < 10)
    refine ⟨n + 1, escalate_exits lookup n tolerance ?_⟩
    rw [div_lt_iff₀ h] at hn
    linarith
  · intro fuel i ht hl
    unfold Plotly.escalate
    rw [if_pos ht, hl]
  · intro fuel ht
    unfold Plotly.escalate
    rw [if_neg (not_lt.mpr ht)]
  · intro fuel ht hl
    have hstep : Plotly.escalate lookup (fuel + 1) tolerance =
        if tolerance < 3 then
          match lookup tolerance with
          | some i => some (some i)
          | none => Plotly.escalate lookup fuel (tolerance * 10)
        else some none := rfl
    rw [hstep, if_pos ht, hl]

/-- Witness for the amended C6 at tolerance 1 with a lookup that always
fails. -/
theorem escalate_terminates_witness :
    (0:ℝ) < 1 ∧ Plotly.loopTerminates (fun _ => none) 1 :=
  ⟨by norm_num, (escalate_terminates (fun _ => none) 1 (by norm_num)).1⟩

/-- Counterexample for C6 as stated: with a caller-supplied tolerance of 0
and a lookup that keeps failing, the loop never terminates (0 times 10 stays
0, forever below the cap). -/
theorem escalate_diverges_at_zero : ¬ Plotly.loopTerminates (fun _ => none) 0 := by
  have key : ∀ fuel : ℕ, Plotly.escalate (fun _ => none) fuel (0:ℝ) = none := by
    intro fuel
    induction fuel with
    | zero => rfl
    | succ k ih =>
      unfold Plotly.escalate
      rw [if_pos (by norm_num : (0:ℝ) < 3)]
      show Plotly.escalate (fun _ => none) k ((0:ℝ) * 10) = none
      rw [zero_mul]
      exact ih
  rintro ⟨fuel, hf⟩
  rw [key fuel] at hf
  simp at hf

/-- The loop can only report an index that some lookup returned. -/
theorem escalate_sound (lookup : ℝ → Option ℕ) :
    ∀ (fuel : ℕ) (tol : ℝ) (i : ℕ),
      Plotly.escalate lookup fuel tol = some (some i) → ∃ t, lookup t = some i := by
  intro fuel
  induction fuel with
  | zero =>
    intro tol i h
    exact absurd h (by simp [Plotly.escalate])
  | succ k ih =>
    intro tol i h
    unfold Plotly.escalate at h
    by_cases htol : tol < 3
    · rw [if_pos htol] at h
      cases hl : lookup tol with
      | some j =>
        rw [hl] at h
        simp only [Option.some.injEq] at h
        exact ⟨tol, by rw [hl, h]⟩
      | none =>
        rw [hl] at h
        exact ih _ i h
    · rw [if_neg htol] at h
      simp at h

/-- A resolved corner comes from a successful lookup. -/
theorem cornerResolve_sound (lookup : ℝ → Option ℕ) (tolerance : ℝ) (fuel : ℕ)
    (i : ℕ) (h : Plotly.cornerResolve lookup tolerance fuel = some i) :
    ∃ t, lookup t = some i := by
  unfold Plotly.cornerResolve at h
  cases hesc : Plotly.escalate lookup fuel tolerance with
  | none =>
    rw [hesc] at h
    exact absurd h (by simp)
  | some o =>
    rw [hesc] at h
    cases o with
    | none => exact absurd h (by simp)
    | some j =>
      have hji : j = i := by simpa using h
      subst hji
      exact escalate_sound lookup fuel tolerance j hesc

/-- Every face emitted by the face-building loop passed the length guard and
arose from one of the triangles. -/
theorem facesOf_mem (triangles : List (List (ℝ → Option ℕ))) (tolerance : ℝ)
    (fuel : ℕ) :
    ∀ face ∈ Plotly.facesOf triangles tolerance fuel,
      2 < face.length ∧ ∃ tri ∈ triangles,
        face = tri.filterMap fun lk => Plotly.cornerResolve lk tolerance fuel := by
  induction triangles with
  | nil =>
    intro face h
    exact absurd h (List.not_mem_nil face)
  | cons tri rest ih =>
    intro face hface
    unfold Plotly.facesOf at hface
    rw [List.foldr_cons] at hface
    by_cases hlen :
        2 < (tri.filterMap fun lk => Plotly.cornerResolve lk tolerance fuel).length
    · rw [if_pos hlen] at hface
      rcases List.mem_cons.mp hface with rfl | hmem
      · exact ⟨hlen, tri, List.mem_cons_self tri rest, rfl⟩
      · obtain ⟨h1, t, ht, heq⟩ := ih face hmem
        exact ⟨h1, t, List.mem_cons_of_mem tri ht, heq⟩
    · rw [if_neg hlen] at hface
      obtain ⟨h1, t, ht, heq⟩ := ih face hface
      exact ⟨h1, t, List.mem_cons_of_mem tri ht, heq⟩

/-- A list with a member mapped to none loses length under filterMap. -/
theorem filterMap_length_lt {α β : Type} (f : α → Option β) :
    ∀ (l : List α) (x : α), x ∈ l → f x = none →
      (l.filterMap f).length < l.length := by
  intro l
  induction l with
  | nil =>
    intro x hx
    exact absurd hx (List.not_mem_nil x)
  | cons a rest ih =>
    intro x hx hfx
    rcases List.mem_cons.mp hx with rfl | hmem
    · rw [List.filterMap_cons_none hfx, List.length_cons]
      exact Nat.lt_succ_of_le (List.length_filterMap_le f rest)
    · cases hfa : f a with
      | none =>
        rw [List.filterMap_cons_none hfa, List.length_cons]
        exact Nat.lt_succ_of_lt (ih x hmem hfx)
      | some b =>
        rw [List.filterMap_cons_some hfa, List.length_cons, List.length_cons]
        exact Nat.succ_lt_succ (ih x hmem hfx)

/-- C7: when every lookup only ever returns indices below the vertex-array
size, every face emitted by the face-building loop has more than 2 corners
and only valid indices; and a triangle with a corner that fails to resolve
contributes strictly fewer resolved corners than it has, so a 3-corner
triangle with a failed corner has at most 2 resolved corners and is
omitted by the length guard. -/
theorem facesOf_safe (triangles : List (List (ℝ → Option ℕ))) (tolerance : ℝ)
    (fuel : ℕ) (n : ℕ)
    (hvalid : ∀ tri ∈ triangles, ∀ lk ∈ tri, ∀ t i, lk t = some i → i < n) :
    (∀ face ∈ Plotly.facesOf triangles tolerance fuel,
      2 < face.length ∧ ∀ idx ∈ face, idx < n) ∧
    (∀ tri ∈ triangles, ∀ lk ∈ tri,
      Plotly.cornerResolve lk tolerance fuel = none →
      (tri.filterMap fun lk => Plotly.cornerResolve lk tolerance fuel).length <
        tri.length) := by
  constructor
  · intro face hface
    obtain ⟨hlen, tri, htri, rfl⟩ :=
      facesOf_mem triangles tolerance fuel face hface
    refine ⟨hlen, ?_⟩
    intro idx hidx
    obtain ⟨lk, hlk, hres⟩ := List.mem_filterMap.mp hidx
    obtain ⟨t, ht⟩ := cornerResolve_sound lk tolerance fuel idx hres
    exact hvalid tri htri lk hlk t idx ht
  · intro tri htri lk hlk hnone
    exact filterMap_length_lt _ tri lk hlk hnone

/-- Witness for C7: one triangle whose three corners all resolve to index 0
in a 2-vertex array. -/
theorem facesOf_safe_witness :
    (∀ tri ∈ ([[fun _ => some 0, fun _ => some 0, fun _ => some 0]] :
        List (List (ℝ → Option ℕ))),
      ∀ lk ∈ tri, ∀ t i, lk t = some i → i < 2) ∧
    ((∀ face ∈ Plotly.facesOf
        [[fun _ => some 0, fun _ => some 0, fun _ => some 0]] 1 1,
      2 < face.length ∧ ∀ idx ∈ face, idx < 2) ∧
    (∀ tri ∈ ([[fun _ => some 0, fun _ => some 0, fun _ => some 0]] :
        List (List (ℝ → Option ℕ))),
      ∀ lk ∈ tri,
      Plotly.cornerResolve lk 1 1 = none →
      (tri.filterMap fun lk => Plotly.cornerResolve lk 1 1).length <
        tri.length)) := by
  have hv : ∀ tri ∈ ([[fun _ => some 0, fun _ => some 0, fun _ => some 0]] :
      List (List (ℝ → Option ℕ))),
      ∀ lk ∈ tri, ∀ t i, lk t = some i → i < 2 := by
    intro tri htri lk hlk t i hti
    simp only [List.mem_cons, List.not_mem_nil, or_false] at htri
    subst htri
    simp only [List.mem_cons, List.not_mem_nil, or_false] at hlk
    rcases hlk with rfl | rfl | rfl <;>
      · simp only [Option.some.injEq] at hti
        omega
  exact ⟨hv, facesOf_safe _ 1 1 2 hv⟩

/-- C8: SpeckleCommitDelete performs the remote delete only when confirm is
true; with confirm false it returns False (none) with zero remote calls;
when the remote delete raises it catches and returns False; and every other
remote operation of the adapter propagates a remote failure unguarded (each
conjunct below exhibits one remote call site erroring through). -/
theorem speckle_remote_error_handling :
    (∀ (E α : Type) (delete : Unit → Except E α),
      Speckle.SpeckleCommitDelete false delete = (none, 0)) ∧
    (∀ (E α : Type) (e : E),
      Speckle.SpeckleCommitDelete true
        (fun _ => (Except.error e : Except E α)) = (none, 1)) ∧
    (∀ (E α : Type) (d : α),
      Speckle.SpeckleCommitDelete true
        (fun _ => (Except.ok d : Except E α)) = (some d, 1)) ∧
    (∀ (E σ : Type) (e : E),
      Speckle.StreamsByClient (Except.error e : Except E σ) = Except.error e) ∧
    (∀ (E β γ : Type) (e : E) (branchGet : β → Except E γ),
      Speckle.BranchesByStream (Except.error e) branchGet = Except.error e) ∧
    (∀ (E β γ : Type) (e : E) (b : β),
      Speckle.BranchesByStream (Except.ok [b])
        (fun _ => (Except.error e : Except E γ)) = Except.error e) ∧
    (∀ (E κ : Type) (e : E) (client : κ),
      Speckle.ClientByURL (Except.error e) client = Except.error e) ∧
    (∀ (E σ : Type) (e : E) (streamList : Except E (List σ)) (p : σ → Bool),
      Speckle.SpeckleStreamByURL (Except.error e) streamList p = Except.error e) ∧
    (∀ (E σ : Type) (e : E) (p : σ → Bool),
      Speckle.SpeckleStreamByURL (Except.ok ()) (Except.error e) p =
        Except.error e) ∧
    (∀ (E σ χ : Type) (e : E) (streamList : Except E (List σ)) (ps : σ → Bool)
      (commitList : Except E (List χ)) (pc : χ → Bool),
      Speckle.SpeckleCommitByURL (Except.error e) streamList ps commitList pc =
        Except.error e) ∧
    (∀ (E σ χ : Type) (e : E) (ps : σ → Bool) (commitList : Except E (List χ))
      (pc : χ → Bool),
      Speckle.SpeckleCommitByURL (Except.ok ()) (Except.error e) ps commitList pc =
        Except.error e) ∧
    (∀ (E σ χ : Type) (e : E) (streams : List σ) (ps : σ → Bool) (pc : χ → Bool),
      Speckle.SpeckleCommitByURL (Except.ok ()) (Except.ok streams) ps
        (Except.error e) pc = Except.error e) ∧
    (∀ (E χ ω δ : Type) (e : E) (receive : χ → Except E ω) (p : ω → δ),
      Speckle.SpeckleGlobalsByStream (Except.error e) receive p = Except.error e) ∧
    (∀ (E χ ω δ : Type) (e : E) (c : χ) (p : ω → δ),
      Speckle.SpeckleGlobalsByStream (Except.ok [c])
        (fun _ => (Except.error e : Except E ω)) p = Except.error e) ∧
    (∀ (E ι ν χ : Type) (e : E) (commitCreate : ι → Except E ν)
      (branchCommits : List χ) (isMatch : χ → ν → Bool),
      Speckle.Send true (Except.error e) commitCreate branchCommits isMatch =
        Except.error e) ∧
    (∀ (E ι ν χ : Type) (e : E) (obj : ι) (branchCommits : List χ)
      (isMatch : χ → ν → Bool),
      Speckle.Send true (Except.ok obj) (fun _ => Except.error e) branchCommits
        isMatch = Except.error e) ∧
    (∀ (E ι ν χ : Type) (e : E) (commitCreate : ι → Except E ν)
      (branchCommits : List χ) (isMatch : χ → ν → Bool),
      Speckle.SpeckleSendObjects true (Except.error e) commitCreate branchCommits
        isMatch = Except.error e) ∧
    (∀ (E ι ν χ : Type) (e : E) (obj : ι) (branchCommits : List χ)
      (isMatch : χ → ν → Bool),
      Speckle.SpeckleSendObjects true (Except.ok obj) (fun _ => Except.error e)
        branchCommits isMatch = Except.error e) ∧
    (∀ (E τ : Type) (e : E)
      (byGeometry : Option (List (ℝ × ℝ × ℝ)) → Option (List (List ℤ)) → τ),
      Speckle.Object (Except.error e) byGeometry = Except.error e) :=
  ⟨fun _ _ _ => rfl, fun _ _ _ => rfl, fun _ _ _ => rfl, fun _ _ _ => rfl,
   fun _ _ _ _ _ => rfl, fun _ _ _ _ _ => rfl, fun _ _ _ _ => rfl,
   fun _ _ _ _ _ => rfl, fun _ _ _ _ => rfl, fun _ _ _ _ _ _ _ _ => rfl,
   fun _ _ _ _ _ _ _ => rfl, fun _ _ _ _ _ _ _ => rfl, fun _ _ _ _ _ _ _ => rfl,
   fun _ _ _ _ _ _ _ => rfl, fun _ _ _ _ _ _ _ _ => rfl,
   fun _ _ _ _ _ _ _ _ => rfl, fun _ _ _ _ _ _ _ _ => rfl,
   fun _ _ _ _ _ _ _ _ => rfl, fun _ _ _ _ => rfl⟩

end
